import Mathlib

/-!
# birthdaybot: the set-birthday handler and the daily birthday lookup

A shallow embedding of `cmd/birthdaybot/main.go`.  The handler calls Go's
`time.Parse`, `time.Date` and the accessors of `time.Time`; the lookup is an
SQL query over SQLite's `strftime`.  Both libraries are embedded here as far as
the program reaches into them, on the proleptic Gregorian calendar they share.
-/

namespace Birthdaybot

/-! ## Go `time`: constants and calendar arithmetic -/

def secondsPerMinute : Nat := 60
def secondsPerHour : Nat := 60 * secondsPerMinute
def secondsPerDay : Nat := 24 * secondsPerHour
def daysPer400Years : Nat := 365 * 400 + 97
def daysPer100Years : Nat := 365 * 100 + 24
def daysPer4Years : Nat := 365 * 4 + 1

/-- The year of the zero of Go's absolute time scale. -/
def absoluteZeroYear : Int := -292277022399

/-- The constant `unixToInternal + internalToAbsolute`: absolute seconds of the
Unix epoch. -/
def unixToAbsolute : Int := 9223372028715321600

/-- Go's `daysBefore` table: `daysBefore[m]` counts the days of a non-leap year
before month `m+1`. -/
def daysBefore : List Nat :=
  [0, 31, 59, 90, 120, 151, 181, 212, 243, 273, 304, 334, 365]

/-- Go's `isLeap`. -/
def isLeap (year : Int) : Bool :=
  year.tmod 4 == 0 && (year.tmod 100 != 0 || year.tmod 400 == 0)

/-- Go's `daysIn(m, year)`. -/
def daysIn (m : Nat) (year : Int) : Nat :=
  if m == 2 && isLeap year then 29
  else daysBefore.getD m 0 - daysBefore.getD (m - 1) 0

/-- Go's `norm(hi, lo, base)`: carries `lo` into `hi` so that `0 <= lo < base`. -/
def norm (hi lo base : Int) : Int × Int :=
  let (hi1, lo1) :=
    if lo < 0 then
      let n := (-lo - 1).tdiv base + 1
      (hi - n, lo + n * base)
    else (hi, lo)
  if lo1 ≥ base then
    let n := lo1.tdiv base
    (hi1 + n, lo1 - n * base)
  else (hi1, lo1)

/-- Go's `daysSinceEpoch(year)`: days from the absolute epoch to the start of
`year`, on unsigned 64-bit integers. -/
def daysSinceEpoch (year : Int) : Nat :=
  let y0 := ((year - absoluteZeroYear) % 2 ^ 64).toNat
  let n400 := y0 / 400
  let y1 := y0 - 400 * n400
  let d1 := daysPer400Years * n400
  let n100 := y1 / 100
  let y2 := y1 - 100 * n100
  let d2 := d1 + daysPer100Years * n100
  let n4 := y2 / 4
  let y3 := y2 - 4 * n4
  let d3 := d2 + daysPer4Years * n4
  d3 + 365 * y3

/-- A `time.Time` in the UTC location: Unix seconds and the nanosecond part. -/
structure Time where
  unix : Int
  nsec : Int
  deriving DecidableEq, Repr

/-- Go's `time.Date(year, month, day, hour, min, sec, nsec, time.UTC)`.  Fields out
of range are normalised: a day past the end of its month runs on into the next
month.  The day count and the absolute seconds are unsigned 64-bit, the Unix
seconds their signed reading less the offset of the Unix epoch. -/
def Date (year : Int) (month : Int) (day hour min sec nsec : Int) : Time :=
  let (year1, m) := norm year (month - 1) 12
  let month1 := m + 1
  let (sec1, nsec1) := norm sec nsec 1000000000
  let (min1, sec2) := norm min sec1 60
  let (hour1, min2) := norm hour min1 60
  let (day1, hour2) := norm day hour1 24
  let d0 : Int := daysSinceEpoch year1
  let d1 := d0 + (daysBefore.getD (month1 - 1).toNat 0 : Nat)
  let d2 := if isLeap year1 && month1 ≥ 3 then d1 + 1 else d1
  let d3 := (d2 + (day1 - 1)) % 2 ^ 64
  let abs := (d3 * secondsPerDay
    + (hour2 * secondsPerHour + min2 * secondsPerMinute + sec2)) % 2 ^ 64
  let abs64 := if abs < 2 ^ 63 then abs else abs - 2 ^ 64
  { unix := abs64 - unixToAbsolute, nsec := nsec1 }

/-- Go's `Time.abs()` in UTC: seconds since the absolute epoch, unsigned 64-bit. -/
def Time.abs (t : Time) : Nat := ((t.unix + unixToAbsolute) % 2 ^ 64).toNat

/-- The first half of Go's `absDate`, all it runs when `full` is false: the civil
year of an absolute time and the day within that year, counted from 0. -/
def absYday (abs : Nat) : Int × Nat :=
  let d0 := abs / secondsPerDay
  let n400 := d0 / daysPer400Years
  let y1 := 400 * n400
  let d1 := d0 - daysPer400Years * n400
  let n100a := d1 / daysPer100Years
  let n100 := n100a - n100a / 4
  let y2 := y1 + 100 * n100
  let d2 := d1 - daysPer100Years * n100
  let n4 := d2 / daysPer4Years
  let y3 := y2 + 4 * n4
  let d3 := d2 - daysPer4Years * n4
  let na := d3 / 365
  let n := na - na / 4
  let y := y3 + n
  let yday := d3 - 365 * n
  ((y : Int) + absoluteZeroYear, yday)

/-- Go's `absDate(abs, true)`: the civil year, month and day of an absolute time. -/
def absDate (abs : Nat) : Int × Nat × Nat :=
  let year := (absYday abs).1
  let yday := (absYday abs).2
  if isLeap year && yday == 31 + 29 - 1 then (year, 2, 29)
  else
    let day := if isLeap year && yday > 31 + 29 - 1 then yday - 1 else yday
    let month0 := day / 31
    let endDay := daysBefore.getD (month0 + 1) 0
    if day ≥ endDay then (year, month0 + 2, day - endDay + 1)
    else (year, month0 + 1, day - daysBefore.getD month0 0 + 1)

def Time.Year (t : Time) : Int := (absDate t.abs).1
def Time.Month (t : Time) : Nat := (absDate t.abs).2.1
def Time.Day (t : Time) : Nat := (absDate t.abs).2.2
def Time.Hour (t : Time) : Nat := t.abs % secondsPerDay / secondsPerHour
def Time.Minute (t : Time) : Nat := t.abs % secondsPerHour / secondsPerMinute
def Time.Second (t : Time) : Nat := t.abs % secondsPerMinute
def Time.Nanosecond (t : Time) : Int := t.nsec
def Time.Unix (t : Time) : Int := t.unix

/-! ## Go `time.Parse` on the layout `"Jan 02"` -/

/-- Go's `shortMonthNames`. -/
def shortMonthNames : List String :=
  ["Jan", "Feb", "Mar", "Apr", "May", "Jun", "Jul", "Aug", "Sep", "Oct", "Nov", "Dec"]

/-- Go's `ParseError`. -/
structure ParseError where
  Layout : String
  Value : String
  LayoutElem : String
  ValueElem : String
  Message : String
  deriving DecidableEq, Repr

/-- Go's `quote`, on text that needs no escaping: the text between double quotes. -/
def quote (s : String) : String :=
  String.singleton '"' ++ s ++ String.singleton '"'

/-- Go's `(*ParseError).Error`. -/
def ParseError.Error (e : ParseError) : String :=
  if e.Message = "" then
    "parsing time " ++ quote e.Value ++ " as " ++ quote e.Layout ++ ": cannot parse "
      ++ quote e.ValueElem ++ " as " ++ quote e.LayoutElem
  else "parsing time " ++ quote e.Value ++ e.Message

/-- Go's `match(s1, s2)`: equality of two texts of one length, ASCII letters
compared without case.  A character outside ASCII equals only itself, as each of
its bytes does in Go. -/
def matchFold : List Char → List Char → Bool
  | c1 :: r1, c2 :: r2 =>
    (c1 == c2 ||
      ((c1.toNat ||| 32) == (c2.toNat ||| 32) && 97 ≤ (c1.toNat ||| 32)
        && (c1.toNat ||| 32) ≤ 122))
      && matchFold r1 r2
  | _, _ => true

/-- The loop of Go's `lookup(tab, val)`, `i` being the index of the head of `tab`. -/
def lookupFrom (val : List Char) : Nat → List String → Option (Nat × List Char)
  | _, [] => none
  | i, v :: rest =>
    if val.length ≥ v.length && matchFold (val.take v.length) v.toList then
      some (i, val.drop v.length)
    else lookupFrom val (i + 1) rest

/-- Go's `lookup(tab, val)`: the index of the first entry of `tab` that `val` starts
with, and the rest of `val`. -/
def lookup (tab : List String) (val : List Char) : Option (Nat × List Char) :=
  lookupFrom val 0 tab

/-- Go's `cutspace`. -/
def cutspace : List Char → List Char
  | c :: rest => if c = ' ' then cutspace rest else c :: rest
  | [] => []

/-- The loop of Go's `skip(value, prefix)`; each round consumes at least one
character of `prefix`, so `prefix.length` rounds are enough. -/
def skipLoop : Nat → List Char → List Char → Option (List Char)
  | _, value, [] => some value
  | 0, _, _ :: _ => none
  | fuel + 1, value, p :: rest =>
    if p = ' ' then
      match value with
      | v :: vs =>
        if v ≠ ' ' then none
        else skipLoop fuel (cutspace (v :: vs)) (cutspace (p :: rest))
      | [] => skipLoop fuel [] (cutspace (p :: rest))
    else
      match value with
      | v :: vs => if v = p then skipLoop fuel vs rest else none
      | [] => none

/-- Go's `skip(value, prefix)`: a space of the layout stands for any run of spaces
in the value, every other character for itself. -/
def skip (value pfx : List Char) : Option (List Char) :=
  skipLoop pfx.length value pfx

/-- Go's `isDigit(s, i)`. -/
def isDigit (s : List Char) (i : Nat) : Bool :=
  match s.get? i with
  | some c => '0' ≤ c && c ≤ '9'
  | none => false

/-- Go's `getnum(s, fixed)`: a number of one or two digits, of exactly two when
`fixed`. -/
def getnum (s : List Char) (fixed : Bool) : Option (Nat × List Char) :=
  if !isDigit s 0 then none
  else if !isDigit s 1 then
    if fixed then none
    else some ((s.getD 0 '0').toNat - 48, s.drop 1)
  else
    some (((s.getD 0 '0').toNat - 48) * 10 + ((s.getD 1 '0').toNat - 48), s.drop 2)

/-- The layout the handler parses with. -/
def layout : String := "Jan 02"

/-- Go's `time.Parse("Jan 02", value)`, unrolled on the three chunks of the
layout: the month name, a space followed by the two-digit day, and the end.  The
year is left at its default 0, the time of day at midnight, the location is UTC. -/
def Parse (value : String) : Except ParseError Time :=
  let v0 := value.toList
  match lookup shortMonthNames v0 with
  | none => .error ⟨layout, value, "Jan", String.mk v0, ""⟩
  | some (i, v1) =>
    let month := i + 1
    match skip v1 [' '] with
    | none => .error ⟨layout, value, " ", String.mk v1, ""⟩
    | some v2 =>
      match getnum v2 true with
      | none => .error ⟨layout, value, "02", String.mk v2, ""⟩
      | some (day, v3) =>
        if v3.length ≠ 0 then
          .error ⟨layout, value, "", String.mk v3, ": extra text: " ++ quote (String.mk v3)⟩
        else if day < 1 || day > daysIn month 0 then
          .error ⟨layout, value, "", String.mk v3, ": day out of range"⟩
        else .ok (Date 0 month day 0 0 0 0)

/-! ## The program: declarations of `main.go` -/

/-- The `months` table of the program; a key that is absent yields Go's empty
string. -/
def months (m : Nat) : String :=
  match m with
  | 1 => "January"
  | 2 => "Feburary"
  | 3 => "March"
  | 4 => "April"
  | 5 => "May"
  | 6 => "June"
  | 7 => "July"
  | 8 => "August"
  | 9 => "September"
  | 10 => "October"
  | 11 => "Noveember"
  | 12 => "December"
  | _ => ""

/-- The program's `ord`. -/
def ord (i : Nat) : String :=
  match i with
  | 1 => "st"
  | 2 => "nd"
  | _ => "th"

/-- A row of the table `users`: the program's `User`. -/
structure User where
  ID : String
  Birthday : Int
  deriving DecidableEq, Repr

/-- The option types of discordgo, `ApplicationCommandOptionType`. -/
inductive ApplicationCommandOptionType where
  | SubCommand | SubCommandGroup | String | Integer | Boolean | User | Channel
  | Role | Mentionable | Number | Attachment
  deriving DecidableEq, Repr

/-- The fields of discordgo's `ApplicationCommandOption` that the program's
declaration can set (`OptionType` is its field `Type`); a field the declaration leaves out has
Go's zero value. -/
structure ApplicationCommandOption where
  Name : String
  Description : String
  OptionType : ApplicationCommandOptionType
  Required : Bool := false
  deriving DecidableEq, Repr

/-- The fields of discordgo's `ApplicationCommand` that the program sets. -/
structure ApplicationCommand where
  Name : String
  Description : String
  Options : List ApplicationCommandOption
  deriving DecidableEq, Repr

/-- The program's `commands`. -/
def commands : List ApplicationCommand :=
  [{ Name := "set-birthday"
     Description := "Basic Command"
     Options :=
      [{ Name := "date"
         Description := "Your birthday! In MMM-DD (e.g. Jun 06), please!"
         OptionType := ApplicationCommandOptionType.String }] }]

/-- An option of an incoming interaction, discordgo's
`ApplicationCommandInteractionDataOption`; `Value` is the text of a string option. -/
structure InteractionOption where
  Name : String
  OptionType : ApplicationCommandOptionType
  Value : String
  deriving DecidableEq, Repr

/-- The program's `parseOptions`: the map from option name to option, a later
option of the same name replacing an earlier one.  A name that is absent maps to
`none`, Go's nil pointer. -/
def parseOptions (raw : List InteractionOption) : String → Option InteractionOption :=
  raw.foldl (fun resp opt => fun k => if k = opt.Name then some opt else resp k)
    (fun _ => none)

/-- What the handler needs of an `InteractionCreate`: the options of the command
data, the id of the invoking member and the member's mention text. -/
structure Interaction where
  Options : List InteractionOption
  UserID : String
  Mention : String
  deriving DecidableEq, Repr

/-! ## The table `users` and the statements run against it -/

/-- The statement `INSERT INTO users (id, birthdate) VALUES ($1, $2) ON CONFLICT (id)
DO UPDATE SET birthdate = $2`: the row whose id is `id` gets the new birthdate, and
when there is none a new row is added. -/
def upsert (rows : List User) (id : String) (birthdate : Int) : List User :=
  if rows.any (fun r => r.ID == id) then
    rows.map (fun r => if r.ID = id then { r with Birthday := birthdate } else r)
  else rows ++ [{ ID := id, Birthday := birthdate }]

/-- The constraint `id text PRIMARY KEY` of the schema: no two rows share an id. -/
def primaryKey (rows : List User) : Prop := (rows.map User.ID).Nodup

instance (rows : List User) : Decidable (primaryKey rows) := by
  unfold primaryKey; infer_instance

/-- The instants SQLite's date functions accept with the `unixepoch` modifier:
from the start of the Julian day count to the end of the year 9999. -/
def sqlDateValid (e : Int) : Bool :=
  decide (-210866760000 ≤ e) && decide (e < 253402300800)

/-- A decimal digit as a character. -/
def digitChar (n : Nat) : Char := Char.ofNat (48 + n)

/-- SQLite's `strftime('%m-%d', e, 'unixepoch')`: the month and the day of the
instant `e` in UTC, two digits each, and `none` (SQL NULL) outside the range of
the date functions. -/
def strftimeMonthDay (e : Int) : Option String :=
  if sqlDateValid e then
    let t : Time := { unix := e, nsec := 0 }
    some (String.mk [digitChar (t.Month / 10 % 10), digitChar (t.Month % 10), '-',
      digitChar (t.Day / 10 % 10), digitChar (t.Day % 10)])
  else none

/-- The query of `main` and of the cron callback,
`SELECT * FROM users WHERE strftime('%m-%d', birthdate, 'unixepoch') =
strftime('%m-%d', 'now', 'utc')`, run at the instant `now`.  The right side is the
month and day of `now` in UTC: `now` is a UTC time and the engine knows it, so the
`utc` modifier leaves it as it is (SQLite from 3.46 on, the engine of the current
go-sqlite3 driver; an earlier engine agrees on a host whose zone is UTC).  A
comparison with NULL selects nothing. -/
def selectBirthdays (now : Int) (rows : List User) : List User :=
  rows.filter fun u =>
    match strftimeMonthDay u.Birthday, strftimeMonthDay now with
    | some a, some b => a == b
    | _, _ => false

/-! ## The handler of `set-birthday` -/

/-- The errors the database can answer a transaction with: one text for each
step that fails. -/
structure DbFaults where
  beginErr : Option String
  execErr : Option String
  commitErr : Option String
  deriving DecidableEq, Repr

/-- The calls the handler makes on the database, in order. -/
inductive DbOp where
  | begin
  | exec (id : String) (birthdate : Int)
  | commit
  deriving DecidableEq, Repr

/-- The end of a handler run: the content it responds with, or a Go panic. -/
inductive Reply where
  | panic
  | content (msg : String)
  deriving DecidableEq, Repr

/-- A handler run: the reply, the committed rows of `users` afterwards and the
database calls made. -/
structure Outcome where
  reply : Reply
  rows : List User
  ops : List DbOp
  deriving DecidableEq, Repr

/-- The text every error reply starts with. -/
def errorHead : String := "There was an error responding to your command: "

/-- The format "There was an error responding to your command: (err in a code
fence)" of the handler. -/
def errorReply (err : String) : String := errorHead ++ "```" ++ err ++ "```"

/-- The format of the success reply. -/
def successReply (mention : String) (date : Time) : String :=
  "Success! " ++ mention ++ ", you have set your birthday to " ++ months date.Month
    ++ " " ++ toString date.Day ++ ord date.Day ++ "."

/-- Lines 109 to 111: the parsed date moved to the year 1970. -/
def rebase (oldDate : Time) : Time :=
  Date 1970 oldDate.Month oldDate.Day oldDate.Hour oldDate.Minute oldDate.Second
    oldDate.Nanosecond

/-- The facts checked of one day `m`/`d` of the year 0: `Month` and `Day` read it
back, and once the handler has moved it to 1970 the stored instant is a midnight
of 1970, on the same month and day except for February 29, which 1970 lacks and
which becomes March 1. -/
def rebaseCheck (m d : Nat) : Bool :=
  let date := rebase (Date 0 (m : Int) (d : Int) 0 0 0 0)
  !(decide (1 ≤ m) && decide (1 ≤ d) && decide (d ≤ daysIn m 0)) ||
    (decide ((Date 0 (m : Int) (d : Int) 0 0 0 0).Month = m)
      && decide ((Date 0 (m : Int) (d : Int) 0 0 0 0).Day = d)
      && decide (date.nsec = 0) && decide (0 ≤ date.Unix) && decide (date.Unix < 365 * 86400)
      && decide (date.Unix % 86400 = 0) && decide (date.Year = 1970)
      && decide (date.Hour = 0) && decide (date.Minute = 0) && decide (date.Second = 0)
      && (if m = 2 ∧ d = 29 then decide (date.Month = 3) && decide (date.Day = 1)
          else decide (date.Month = m) && decide (date.Day = d)))

/-- The handler `commandHandlers["set-birthday"]` run on the interaction `i`, the
committed rows `rows` and a database that answers with `db`.  Reading the value of
an option that is absent, or not a string, panics; rows written inside the
transaction are committed only when `Commit` succeeds. -/
def setBirthday (db : DbFaults) (rows : List User) (i : Interaction) : Outcome :=
  match parseOptions i.Options "date" with
  | none => { reply := .panic, rows := rows, ops := [] }
  | some opt =>
    if opt.OptionType ≠ ApplicationCommandOptionType.String then
      { reply := .panic, rows := rows, ops := [] }
    else
      match Parse opt.Value with
      | .error err => { reply := .content (errorReply err.Error), rows := rows, ops := [] }
      | .ok oldDate =>
        let date := rebase oldDate
        match db.beginErr with
        | some err => { reply := .content (errorReply err), rows := rows, ops := [.begin] }
        | none =>
          match db.execErr with
          | some err =>
            { reply := .content (errorReply err), rows := rows,
              ops := [.begin, .exec i.UserID date.Unix] }
          | none =>
            match db.commitErr with
            | some err =>
              { reply := .content (errorReply err), rows := rows,
                ops := [.begin, .exec i.UserID date.Unix, .commit] }
            | none =>
              { reply := .content (successReply i.Mention date),
                rows := upsert rows i.UserID date.Unix,
                ops := [.begin, .exec i.UserID date.Unix, .commit] }

/-- An invocation of `set-birthday` with the text `date` by the member whose id is
`uid` and whose mention text is `mention`. -/
def invoke (uid mention : String) (date : String) : Interaction :=
  { Options := [{ Name := "date", OptionType := ApplicationCommandOptionType.String, Value := date }]
    UserID := uid
    Mention := mention }

/-- A database on which every step of the transaction succeeds. -/
def noFaults : DbFaults := { beginErr := none, execErr := none, commitErr := none }

/-! ## The scheduler of `main` -/

/-- What the program uses of a gocron scheduler in UTC: whether it has been
started, and the cron expressions of the jobs registered on it. -/
structure Scheduler where
  running : Bool
  jobs : List String
  deriving DecidableEq, Repr

/-- The scheduler `gocron.NewScheduler(time.UTC)`: not started, no jobs. -/
def NewScheduler : Scheduler := { running := false, jobs := [] }

/-- The registration `s.Cron(expr).Do(job)`. -/
def Scheduler.CronDo (s : Scheduler) (expr : String) : Scheduler :=
  { s with jobs := s.jobs ++ [expr] }

/-- The calls `s.StartAsync()` and `s.StartBlocking()` of gocron. -/
def Scheduler.Start (s : Scheduler) : Scheduler := { s with running := true }

/-- Whether a job with the expression `expr` is due at the instant `now`; of cron
expressions only `0 0 * * *`, minute 0 of hour 0 of every day, occurs. -/
def cronDue (expr : String) (now : Int) : Bool :=
  expr = "0 0 * * *" && now % 86400 == 0

/-- The jobs a scheduler fires at the instant `now`: those due, and none at all
while the scheduler has not been started. -/
def Scheduler.fired (s : Scheduler) (now : Int) : List String :=
  if s.running then s.jobs.filter (fun expr => cronDue expr now) else []

/-- The scheduler `c` as `main` leaves it: one job registered on a new scheduler. -/
def mainScheduler : Scheduler := NewScheduler.CronDo "0 0 * * *"

/-- The cron callback: it runs the query and prints every row selected; the result
is the rows printed, in order. -/
def cronCallback (now : Int) (rows : List User) : List User :=
  selectBirthdays now rows

/-- The rows printed by the callbacks the scheduler `s` fires at `now`. -/
def Scheduler.printed (s : Scheduler) (now : Int) (rows : List User) : List User :=
  ((s.fired now).map (fun _ => cronCallback now rows)).flatten

/-! ## Facts about the parser -/

theorem lookupFrom_bound (val : List Char) :
    ∀ (tab : List String) (i j : Nat) (r : List Char),
      lookupFrom val i tab = some (j, r) → i ≤ j ∧ j < i + tab.length := by
  intro tab
  induction tab with
  | nil => intro i j r h; simp [lookupFrom] at h
  | cons v rest ih =>
    intro i j r h
    unfold lookupFrom at h
    split at h
    · simp only [Option.some.injEq, Prod.mk.injEq] at h
      simp only [List.length_cons]
      omega
    · have := ih (i + 1) j r h
      simp only [List.length_cons]
      omega

/-- An accepted text is a month of the year and a day that the month has in the
year 0, and the parsed time is midnight UTC of that day of the year 0. -/
theorem Parse_ok {s : String} {t : Time} (h : Parse s = .ok t) :
    ∃ m d : Nat, 1 ≤ m ∧ m ≤ 12 ∧ 1 ≤ d ∧ d ≤ daysIn m 0 ∧
      t = Date 0 (m : Int) (d : Int) 0 0 0 0 := by
  unfold Parse at h
  simp only at h
  split at h
  · cases h
  · rename_i i v1 hl
    split at h
    · cases h
    · split at h
      · cases h
      · rename_i day v3 hg
        split at h
        · cases h
        · split at h
          · cases h
          · rename_i hlen hday
            have hb := lookupFrom_bound _ _ _ _ _ hl
            simp only [shortMonthNames, List.length_cons, List.length_nil] at hb
            refine ⟨i + 1, day, by omega, by omega, ?_, ?_, ?_⟩
            · simp only [Bool.or_eq_true, decide_eq_true_eq, not_or, not_lt] at hday
              omega
            · simp only [Bool.or_eq_true, decide_eq_true_eq, not_or, not_lt] at hday
              omega
            · injection h with h
              exact h.symm

theorem daysIn_le (m : Nat) (hm : m ≤ 12) : daysIn m 0 ≤ 31 := by
  have : ∀ k < 13, daysIn k 0 ≤ 31 := by decide
  exact this m (by omega)

set_option maxRecDepth 100000 in
/-- The check holds for all twelve months and every day up to the 31st. -/
theorem rebaseCheck_all : ∀ m < 13, ∀ d < 32, rebaseCheck m d = true := by
  decide

theorem rebase_facts {m d : Nat} (hm1 : 1 ≤ m) (hm : m ≤ 12) (hd1 : 1 ≤ d)
    (hd : d ≤ daysIn m 0) :
    (Date 0 (m : Int) (d : Int) 0 0 0 0).Month = m ∧
    (Date 0 (m : Int) (d : Int) 0 0 0 0).Day = d ∧
    (rebase (Date 0 (m : Int) (d : Int) 0 0 0 0)).nsec = 0 ∧
    0 ≤ (rebase (Date 0 (m : Int) (d : Int) 0 0 0 0)).Unix ∧
    (rebase (Date 0 (m : Int) (d : Int) 0 0 0 0)).Unix < 365 * 86400 ∧
    (rebase (Date 0 (m : Int) (d : Int) 0 0 0 0)).Unix % 86400 = 0 ∧
    (rebase (Date 0 (m : Int) (d : Int) 0 0 0 0)).Year = 1970 ∧
    (rebase (Date 0 (m : Int) (d : Int) 0 0 0 0)).Hour = 0 ∧
    (rebase (Date 0 (m : Int) (d : Int) 0 0 0 0)).Minute = 0 ∧
    (rebase (Date 0 (m : Int) (d : Int) 0 0 0 0)).Second = 0 ∧
    (¬(m = 2 ∧ d = 29) →
      (rebase (Date 0 (m : Int) (d : Int) 0 0 0 0)).Month = m ∧
      (rebase (Date 0 (m : Int) (d : Int) 0 0 0 0)).Day = d) ∧
    (m = 2 ∧ d = 29 →
      (rebase (Date 0 (m : Int) (d : Int) 0 0 0 0)).Month = 3 ∧
      (rebase (Date 0 (m : Int) (d : Int) 0 0 0 0)).Day = 1) := by
  have hd31 := daysIn_le m hm
  have h := rebaseCheck_all m (by omega) d (by omega)
  unfold rebaseCheck at h
  simp only [Bool.or_eq_true, Bool.and_eq_true, Bool.not_eq_true', decide_eq_true_eq,
    decide_eq_false_iff_not] at h
  rcases h with h | h
  · have h0 : 1 ≤ m → 1 ≤ d → daysIn m 0 < d := by simpa using h
    have := h0 hm1 hd1
    omega
  · obtain ⟨⟨⟨⟨⟨⟨⟨⟨⟨⟨ha, hb⟩, h1⟩, h2⟩, h3⟩, h4⟩, h5⟩, h6⟩, h7⟩, h8⟩, h9⟩ := h
    refine ⟨ha, hb, h1, h2, h3, h4, h5, h6, h7, h8, ?_, ?_⟩
    · intro hne
      rw [if_neg hne] at h9
      simpa using h9
    · intro heq
      rw [if_pos heq] at h9
      simpa using h9

theorem Parse_toOption {s : String} {t : Time} :
    (Parse s).toOption = some t ↔ Parse s = .ok t := by
  cases h : Parse s with
  | error e => simp [Except.toOption]
  | ok v => simp [Except.toOption]

theorem Parse_toOption_none {s : String} :
    (Parse s).toOption = none ↔ ∃ e, Parse s = .error e := by
  cases h : Parse s with
  | error e => simp [Except.toOption]
  | ok v => simp [Except.toOption]

/-! ## Facts about the handler -/

theorem parseOptions_invoke (uid mention s : String) :
    parseOptions (invoke uid mention s).Options "date" =
      some { Name := "date", OptionType := ApplicationCommandOptionType.String, Value := s } := by
  simp [parseOptions, invoke]

theorem setBirthday_error (db : DbFaults) (rows : List User) (uid mention s : String)
    (e : ParseError) (h : Parse s = .error e) :
    setBirthday db rows (invoke uid mention s) =
      { reply := .content (errorReply e.Error), rows := rows, ops := [] } := by
  unfold setBirthday
  rw [parseOptions_invoke]
  simp [h]

theorem setBirthday_accepted (db : DbFaults) (rows : List User) (uid mention s : String)
    (t : Time) (h : Parse s = .ok t) :
    setBirthday db rows (invoke uid mention s) =
      match db.beginErr with
      | some err => { reply := .content (errorReply err), rows := rows, ops := [.begin] }
      | none =>
        match db.execErr with
        | some err =>
          { reply := .content (errorReply err), rows := rows,
            ops := [.begin, .exec uid (rebase t).Unix] }
        | none =>
          match db.commitErr with
          | some err =>
            { reply := .content (errorReply err), rows := rows,
              ops := [.begin, .exec uid (rebase t).Unix, .commit] }
          | none =>
            { reply := .content (successReply mention (rebase t)),
              rows := upsert rows uid (rebase t).Unix,
              ops := [.begin, .exec uid (rebase t).Unix, .commit] } := by
  unfold setBirthday
  rw [parseOptions_invoke]
  simp [h, invoke]

theorem setBirthday_success (rows : List User) (uid mention s : String)
    (t : Time) (h : Parse s = .ok t) :
    setBirthday noFaults rows (invoke uid mention s) =
      { reply := .content (successReply mention (rebase t)),
        rows := upsert rows uid (rebase t).Unix,
        ops := [.begin, .exec uid (rebase t).Unix, .commit] } := by
  rw [setBirthday_accepted _ _ _ _ _ _ h]
  simp [noFaults]

theorem errorReply_head (err : String) : ∃ rest, errorReply err = errorHead ++ rest :=
  ⟨"```" ++ err ++ "```", by simp [errorReply, String.append_assoc]⟩

theorem errorReply_ne_success (err mention : String) (date : Time) :
    errorReply err ≠ successReply mention date := by
  intro h
  have h2 := congrArg String.data h
  simp [errorReply, errorHead, successReply, String.data_append] at h2

/-! ## Facts about the table -/

theorem upsert_ids_of_present (rows : List User) (id : String) (b : Int) :
    ((rows.map (fun r => if r.ID = id then { r with Birthday := b } else r)).map User.ID)
      = rows.map User.ID := by
  induction rows with
  | nil => rfl
  | cons r rs ih =>
    simp only [List.map_cons, List.cons.injEq]
    refine ⟨?_, ih⟩
    split <;> rfl

theorem any_id_iff (rows : List User) (id : String) :
    rows.any (fun r => r.ID == id) = true ↔ id ∈ rows.map User.ID := by
  simp only [List.any_eq_true, beq_iff_eq, List.mem_map]

/-- The upsert keeps the primary key: ids stay distinct. -/
theorem upsert_primaryKey (rows : List User) (id : String) (b : Int)
    (h : primaryKey rows) : primaryKey (upsert rows id b) := by
  unfold upsert
  split
  · unfold primaryKey
    rw [upsert_ids_of_present]
    exact h
  · rename_i hany
    have hnot : id ∉ rows.map User.ID := fun hin => hany ((any_id_iff rows id).2 hin)
    unfold primaryKey at *
    rw [List.map_append, List.map_cons, List.map_nil]
    refine List.Nodup.append h (List.nodup_singleton _) ?_
    intro x hx hx2
    rw [List.mem_singleton] at hx2
    subst hx2
    exact hnot hx

theorem filter_id_of_absent (rows : List User) (id : String)
    (h : id ∉ rows.map User.ID) : rows.filter (fun r => decide (r.ID = id)) = [] := by
  rw [List.filter_eq_nil_iff]
  intro r hr
  simp only [decide_eq_true_eq]
  intro hid
  exact h (List.mem_map.2 ⟨r, hr, hid⟩)

theorem filter_id_of_present (rows : List User) (id : String) (b : Int)
    (hkey : primaryKey rows) (hin : id ∈ rows.map User.ID) :
    (rows.map (fun r => if r.ID = id then { r with Birthday := b } else r)).filter
      (fun r => decide (r.ID = id)) = [{ ID := id, Birthday := b }] := by
  induction rows with
  | nil => simp at hin
  | cons r rs ih =>
    unfold primaryKey at hkey
    rw [List.map_cons, List.nodup_cons] at hkey
    by_cases hr : r.ID = id
    · have habs : id ∉ (rs.map (fun r => if r.ID = id then { r with Birthday := b } else r)).map
          User.ID := by
        rw [upsert_ids_of_present]
        rw [← hr]
        exact hkey.1
      rw [List.map_cons, if_pos hr, List.filter_cons_of_pos (by simpa using hr),
        filter_id_of_absent _ _ habs, hr]
    · have hin2 : id ∈ rs.map User.ID := by
        rw [List.map_cons, List.mem_cons] at hin
        rcases hin with h | h
        · exact absurd h.symm hr
        · exact h
      rw [List.map_cons, if_neg hr, List.filter_cons_of_neg (by simpa using hr)]
      exact ih hkey.2 hin2

/-- After an upsert for `id` the table holds exactly one row with that id, and it
carries the birthdate just written. -/
theorem upsert_filter (rows : List User) (id : String) (b : Int) (hkey : primaryKey rows) :
    (upsert rows id b).filter (fun r => decide (r.ID = id)) = [{ ID := id, Birthday := b }] := by
  unfold upsert
  split
  · rename_i hany
    exact filter_id_of_present rows id b hkey ((any_id_iff rows id).1 hany)
  · rename_i hany
    have hnot : id ∉ rows.map User.ID := fun hin => hany ((any_id_iff rows id).2 hin)
    rw [List.filter_append, filter_id_of_absent rows id hnot]
    simp

/-- Every run of the handler keeps the primary key of `users`. -/
theorem setBirthday_primaryKey (db : DbFaults) (rows : List User) (i : Interaction)
    (h : primaryKey rows) : primaryKey (setBirthday db rows i).rows := by
  unfold setBirthday
  repeat' split
  all_goals first
    | exact h
    | exact upsert_primaryKey _ _ _ h

/-- Every birthdate the handler hands to the database comes from an accepted text,
moved to 1970. -/
theorem setBirthday_exec (db : DbFaults) (rows : List User) (i : Interaction)
    (id : String) (e : Int) (h : DbOp.exec id e ∈ (setBirthday db rows i).ops) :
    ∃ opt t, parseOptions i.Options "date" = some opt ∧ Parse opt.Value = .ok t ∧
      e = (rebase t).Unix ∧ id = i.UserID := by
  unfold setBirthday at h
  split at h
  · simp at h
  · rename_i opt hopt
    split at h
    · simp at h
    · split at h
      · simp at h
      · rename_i t ht
        refine ⟨opt, t, hopt, ht, ?_⟩
        repeat' split at h
        all_goals simp at h
        all_goals exact ⟨h.2, h.1⟩

/-! ## Facts about the calendar and the query -/

theorem absYday_le (abs : Nat) : (absYday abs).2 ≤ 365 := by
  unfold absYday
  simp only [secondsPerDay, secondsPerHour, secondsPerMinute, daysPer400Years,
    daysPer100Years, daysPer4Years]
  omega

set_option maxRecDepth 100000 in
/-- The second half of `absDate` on every day of a year, leap or not. -/
theorem monthDay_table : ∀ yday < 366, ∀ leap : Bool,
    let day := if leap && yday > 31 + 29 - 1 then yday - 1 else yday
    let md : Nat × Nat :=
      if leap && yday == 31 + 29 - 1 then (2, 29)
      else if day ≥ daysBefore.getD (day / 31 + 1) 0 then
        (day / 31 + 2, day - daysBefore.getD (day / 31 + 1) 0 + 1)
      else (day / 31 + 1, day - daysBefore.getD (day / 31) 0 + 1)
    md.1 < 100 ∧ md.2 < 100 := by
  decide

/-- The month and the day `absDate` returns have at most two digits. -/
theorem absDate_lt (abs : Nat) : (absDate abs).2.1 < 100 ∧ (absDate abs).2.2 < 100 := by
  have hy := absYday_le abs
  have h := monthDay_table (absYday abs).2 (by omega) (isLeap (absYday abs).1)
  unfold absDate
  simp only []
  simp only [] at h
  split_ifs at h ⊢
  all_goals first
    | (simp; done)
    | simpa using h

theorem digitChar_inj : ∀ a < 10, ∀ b < 10, digitChar a = digitChar b → a = b := by
  decide

theorem twoDigits_inj {a b : Nat} (ha : a < 100) (hb : b < 100)
    (h1 : digitChar (a / 10 % 10) = digitChar (b / 10 % 10))
    (h2 : digitChar (a % 10) = digitChar (b % 10)) : a = b := by
  have e1 := digitChar_inj _ (Nat.mod_lt _ (by decide)) _ (Nat.mod_lt _ (by decide)) h1
  have e2 := digitChar_inj _ (Nat.mod_lt _ (by decide)) _ (Nat.mod_lt _ (by decide)) h2
  omega

/-- Two instants in the range of the date functions print the same `%m-%d` text
exactly when they fall on the same month and day. -/
theorem strftimeMonthDay_eq_iff (a b : Int) (ha : sqlDateValid a = true)
    (hb : sqlDateValid b = true) :
    strftimeMonthDay a = strftimeMonthDay b ↔
      (Time.mk a 0).Month = (Time.mk b 0).Month ∧ (Time.mk a 0).Day = (Time.mk b 0).Day := by
  unfold strftimeMonthDay
  rw [if_pos ha, if_pos hb]
  constructor
  · intro h
    have hl := congrArg String.data (Option.some.inj h)
    simp only [List.cons.injEq, and_true, true_and] at hl
    obtain ⟨h1, h2, h3, h4⟩ := hl
    have la := absDate_lt (Time.mk a 0).abs
    have lb := absDate_lt (Time.mk b 0).abs
    exact ⟨twoDigits_inj la.1 lb.1 h1 h2, twoDigits_inj la.2 lb.2 h3 h4⟩
  · rintro ⟨h1, h2⟩
    simp only [h1, h2]

theorem strftimeMonthDay_isSome (a : Int) :
    (strftimeMonthDay a).isSome = sqlDateValid a := by
  unfold strftimeMonthDay
  split <;> simp_all

/-- The query selects the rows whose birthdate falls on the month and day of `now`
in UTC, both instants being in the range of the date functions; a row whose
birthdate is outside that range is never selected. -/
theorem mem_selectBirthdays (now : Int) (rows : List User) (u : User) :
    u ∈ selectBirthdays now rows ↔
      u ∈ rows ∧ sqlDateValid u.Birthday = true ∧ sqlDateValid now = true ∧
        (Time.mk u.Birthday 0).Month = (Time.mk now 0).Month ∧
        (Time.mk u.Birthday 0).Day = (Time.mk now 0).Day := by
  unfold selectBirthdays
  rw [List.mem_filter]
  refine and_congr_right (fun _ => ?_)
  by_cases ha : sqlDateValid u.Birthday = true
  · by_cases hb : sqlDateValid now = true
    · have hiff := strftimeMonthDay_eq_iff _ _ ha hb
      have sa : (strftimeMonthDay u.Birthday).isSome = true := by
        rw [strftimeMonthDay_isSome]; exact ha
      have sb : (strftimeMonthDay now).isSome = true := by
        rw [strftimeMonthDay_isSome]; exact hb
      obtain ⟨x, hx⟩ := Option.isSome_iff_exists.1 sa
      obtain ⟨y, hy⟩ := Option.isSome_iff_exists.1 sb
      rw [hx, hy] at hiff
      simp only [hx, hy, beq_iff_eq, ha, hb, true_and]
      rw [← hiff]
      simp
    · have sb : strftimeMonthDay now = none := by
        unfold strftimeMonthDay; rw [if_neg hb]
      rw [sb]
      cases strftimeMonthDay u.Birthday <;> simp [hb]
  · have sa : strftimeMonthDay u.Birthday = none := by
      unfold strftimeMonthDay; rw [if_neg ha]
    rw [sa]
    simp [ha]

theorem upsert_mem (rows : List User) (id : String) (b : Int) :
    User.mk id b ∈ upsert rows id b := by
  unfold upsert
  split
  · rename_i hany
    rw [List.any_eq_true] at hany
    obtain ⟨r, hr, hid⟩ := hany
    have hid2 : r.ID = id := by simpa using hid
    rw [List.mem_map]
    exact ⟨r, hr, by rw [if_pos hid2, ← hid2]⟩
  · simp

/-- What the handler stores for an accepted text `s` parsed to `t`: a midnight of
1970 on the month and day of `t`, and on March 1 when `t` is February 29. -/
theorem rebase_of_Parse {s : String} {t : Time} (hs : Parse s = .ok t) :
    0 ≤ (rebase t).Unix ∧ (rebase t).Unix < 365 * 86400 ∧ (rebase t).Unix % 86400 = 0 ∧
    (rebase t).Year = 1970 ∧ (rebase t).Hour = 0 ∧ (rebase t).Minute = 0 ∧
    (rebase t).Second = 0 ∧
    (¬(t.Month = 2 ∧ t.Day = 29) →
      (rebase t).Month = t.Month ∧ (rebase t).Day = t.Day) ∧
    (t.Month = 2 ∧ t.Day = 29 → (rebase t).Month = 3 ∧ (rebase t).Day = 1) := by
  obtain ⟨m, d, hm1, hm, hd1, hd, ht⟩ := Parse_ok hs
  obtain ⟨ha, hb, -, h2, h3, h4, h5, h6, h7, h8, h9, h10⟩ := rebase_facts hm1 hm hd1 hd
  rw [← ht] at ha hb h2 h3 h4 h5 h6 h7 h8 h9 h10
  rw [ha, hb]
  exact ⟨h2, h3, h4, h5, h6, h7, h8, h9, h10⟩

theorem sqlDateValid_of_1970 {e : Int} (h0 : 0 ≤ e) (h1 : e < 365 * 86400) :
    sqlDateValid e = true := by
  unfold sqlDateValid
  simp only [Bool.and_eq_true, decide_eq_true_eq]
  omega

/-- Apart from February 29, an accepted text is stored on its own month and day:
the query run at `now` selects the row the handler wrote exactly when `now` falls
on the month and day of the text. -/
theorem setBirthday_then_select (rows : List User) (uid mention s : String) (t : Time)
    (now : Int) (hs : Parse s = .ok t) (hleap : ¬(t.Month = 2 ∧ t.Day = 29))
    (hnow : sqlDateValid now = true) :
    User.mk uid (rebase t).Unix ∈
        selectBirthdays now (setBirthday noFaults rows (invoke uid mention s)).rows ↔
      (Time.mk now 0).Month = t.Month ∧ (Time.mk now 0).Day = t.Day := by
  obtain ⟨h0, h1, -, -, -, -, -, hmd, -⟩ := rebase_of_Parse hs
  obtain ⟨hM, hD⟩ := hmd hleap
  rw [setBirthday_success rows uid mention s t hs, mem_selectBirthdays]
  have hmem := upsert_mem rows uid (rebase t).Unix
  have hv := sqlDateValid_of_1970 h0 h1
  have eM : (Time.mk (rebase t).Unix 0).Month = t.Month := hM
  have eD : (Time.mk (rebase t).Unix 0).Day = t.Day := hD
  simp only [hmem, hv, hnow, eM, eD, true_and]
  constructor
  · rintro ⟨a, b⟩; exact ⟨a.symm, b.symm⟩
  · rintro ⟨a, b⟩; exact ⟨a.symm, b.symm⟩

/-! ## The claims -/

set_option maxRecDepth 100000 in
/-- C1: the text "Feb 29" is accepted, and the instant stored for it is
1970-03-01T00:00:00Z, whose month and day are not those of the text.  The query
run on February 29 of 2024 does not return the row, and the query run on March 1
of 2024 does. -/
theorem setBirthday_feb29_lookup :
    (setBirthday noFaults [] (invoke "u" "<@!u>" "Feb 29")).rows = [User.mk "u" 5097600] ∧
    strftimeMonthDay 5097600 = some "03-01" ∧
    strftimeMonthDay 1709164800 = some "02-29" ∧
    selectBirthdays 1709164800
      (setBirthday noFaults [] (invoke "u" "<@!u>" "Feb 29")).rows = [] ∧
    strftimeMonthDay 1709251200 = some "03-01" ∧
    selectBirthdays 1709251200
      (setBirthday noFaults [] (invoke "u" "<@!u>" "Feb 29")).rows = [User.mk "u" 5097600] := by
  decide

/-- C2: a text that `time.Parse` rejects gets a reply that starts with "There was
an error responding to your command", the rows of `users` stay as they were, and
no call is made on the database. -/
theorem setBirthday_rejected_text (db : DbFaults) (rows : List User)
    (uid mention s : String) (h : (Parse s).toOption = none) :
    (∃ rest, (setBirthday db rows (invoke uid mention s)).reply =
      Reply.content (errorHead ++ rest)) ∧
    (setBirthday db rows (invoke uid mention s)).rows = rows ∧
    (setBirthday db rows (invoke uid mention s)).ops = [] := by
  obtain ⟨e, he⟩ := Parse_toOption_none.1 h
  rw [setBirthday_error db rows uid mention s e he]
  obtain ⟨rest, hrest⟩ := errorReply_head e.Error
  exact ⟨⟨rest, by rw [hrest]⟩, rfl, rfl⟩

set_option maxRecDepth 100000 in
theorem setBirthday_rejected_text_witness :
    (Parse "Foo 99").toOption = none ∧
    ((∃ rest, (setBirthday noFaults [User.mk "u" 13478400]
        (invoke "u" "<@!u>" "Foo 99")).reply = Reply.content (errorHead ++ rest)) ∧
      (setBirthday noFaults [User.mk "u" 13478400] (invoke "u" "<@!u>" "Foo 99")).rows =
        [User.mk "u" 13478400] ∧
      (setBirthday noFaults [User.mk "u" 13478400] (invoke "u" "<@!u>" "Foo 99")).ops = []) :=
  ⟨by decide,
    setBirthday_rejected_text noFaults [User.mk "u" 13478400] "u" "<@!u>" "Foo 99" (by decide)⟩

/-- C3: on a table that satisfies its primary key, two successful runs of
set-birthday for one member, with the accepted texts `d1` and then `d2`, leave
exactly one row with the member's id, carrying the instant stored for `d2` (after
the first run it is one row carrying the instant stored for `d1`); the primary key
holds after each run. -/
theorem setBirthday_twice (rows : List User) (uid mention d1 d2 : String) (t1 t2 : Time)
    (hkey : primaryKey rows) (h1 : (Parse d1).toOption = some t1)
    (h2 : (Parse d2).toOption = some t2) :
    ((setBirthday noFaults (setBirthday noFaults rows (invoke uid mention d1)).rows
        (invoke uid mention d2)).rows.filter (fun r => decide (r.ID = uid))
      = [User.mk uid (rebase t2).Unix]) ∧
    ((setBirthday noFaults rows (invoke uid mention d1)).rows.filter
        (fun r => decide (r.ID = uid)) = [User.mk uid (rebase t1).Unix]) ∧
    primaryKey (setBirthday noFaults rows (invoke uid mention d1)).rows ∧
    primaryKey (setBirthday noFaults (setBirthday noFaults rows (invoke uid mention d1)).rows
        (invoke uid mention d2)).rows := by
  have hk1 := setBirthday_primaryKey noFaults rows (invoke uid mention d1) hkey
  have hk2 := setBirthday_primaryKey noFaults _ (invoke uid mention d2) hk1
  refine ⟨?_, ?_, hk1, hk2⟩
  · rw [setBirthday_success _ uid mention d2 t2 (Parse_toOption.1 h2)]
    exact upsert_filter _ uid _ hk1
  · rw [setBirthday_success _ uid mention d1 t1 (Parse_toOption.1 h1)]
    exact upsert_filter _ uid _ hkey

set_option maxRecDepth 100000 in
theorem setBirthday_twice_witness :
    primaryKey [User.mk "v" 0] ∧
    (Parse "Jun 06").toOption = some (Time.mk (-62153654400) 0) ∧
    (Parse "Jul 07").toOption = some (Time.mk (-62150976000) 0) ∧
    (((setBirthday noFaults (setBirthday noFaults [User.mk "v" 0]
          (invoke "u" "<@!u>" "Jun 06")).rows
        (invoke "u" "<@!u>" "Jul 07")).rows.filter (fun r => decide (r.ID = "u"))
      = [User.mk "u" (rebase (Time.mk (-62150976000) 0)).Unix]) ∧
    ((setBirthday noFaults [User.mk "v" 0] (invoke "u" "<@!u>" "Jun 06")).rows.filter
        (fun r => decide (r.ID = "u")) = [User.mk "u" (rebase (Time.mk (-62153654400) 0)).Unix]) ∧
    primaryKey (setBirthday noFaults [User.mk "v" 0] (invoke "u" "<@!u>" "Jun 06")).rows ∧
    primaryKey (setBirthday noFaults (setBirthday noFaults [User.mk "v" 0]
          (invoke "u" "<@!u>" "Jun 06")).rows
        (invoke "u" "<@!u>" "Jul 07")).rows) :=
  ⟨by decide, by decide, by decide,
    setBirthday_twice [User.mk "v" 0] "u" "<@!u>" "Jun 06" "Jul 07"
      (Time.mk (-62153654400) 0) (Time.mk (-62150976000) 0)
      (by decide) (by decide) (by decide)⟩

set_option maxRecDepth 100000 in
/-- C4: the text "Feb 29" is not rejected: the handler answers with the success
message, naming March 1st, and writes 5097600, the instant 1970-03-01T00:00:00Z,
whose month and day in UTC are 3 and 1.  The year 1970 the date is moved to is not
a leap year. -/
theorem setBirthday_feb29_stored_as_march1 :
    (Parse "Feb 29").toOption = some (Time.mk (-62162121600) 0) ∧
    isLeap 0 = true ∧ isLeap 1970 = false ∧
    setBirthday noFaults [] (invoke "u" "<@!u>" "Feb 29") =
      { reply := Reply.content "Success! <@!u>, you have set your birthday to March 1st."
        rows := [User.mk "u" 5097600]
        ops := [DbOp.begin, DbOp.exec "u" 5097600, DbOp.commit] } ∧
    (Time.mk 5097600 0).Month = 3 ∧ (Time.mk 5097600 0).Day = 1 ∧
    strftimeMonthDay 5097600 = some "03-01" := by
  decide

set_option maxRecDepth 100000 in
/-- C5, as stated, fails outside the range of the engine's date functions.  The
birthdate 253402300800 is 10000-01-01T00:00:00Z, on the month and day of
2025-01-01T00:00:00Z, yet the query run then does not return its row, while it
returns the row of 1970-01-01, the same month and day of another year.  Run at
10000-01-01T00:00:00Z the query returns nothing, not even the row of 1970-01-01. -/
theorem selectBirthdays_beyond_year_9999 :
    (Time.mk 253402300800 0).Year = 10000 ∧
    (Time.mk 253402300800 0).Month = (Time.mk 1735689600 0).Month ∧
    (Time.mk 253402300800 0).Day = (Time.mk 1735689600 0).Day ∧
    (Time.mk 0 0).Month = (Time.mk 1735689600 0).Month ∧
    (Time.mk 0 0).Day = (Time.mk 1735689600 0).Day ∧
    strftimeMonthDay 253402300800 = none ∧
    selectBirthdays 1735689600 [User.mk "a" 253402300800, User.mk "b" 0] = [User.mk "b" 0] ∧
    selectBirthdays 253402300800 [User.mk "b" 0] = [] := by
  decide

/-- C5, amended: for every table and every instant `now`, the query returns exactly
the rows `w` of the table for which the birthdate and `now` both lie in the range
of the engine's date functions (from -210866760000 up to the end of the year 9999)
and the birthdate falls on the month and day of `now` in UTC.  The year plays no
part within the range: two rows `u` and `v` whose birthdates lie in the range and
fall on one month and day are both returned or both omitted. -/
theorem selectBirthdays_month_day (now : Int) (rows : List User) (w u v : User)
    (hu : u ∈ rows) (hv : v ∈ rows) (hur : sqlDateValid u.Birthday = true)
    (hvr : sqlDateValid v.Birthday = true)
    (hM : (Time.mk u.Birthday 0).Month = (Time.mk v.Birthday 0).Month)
    (hD : (Time.mk u.Birthday 0).Day = (Time.mk v.Birthday 0).Day) :
    (w ∈ selectBirthdays now rows ↔
      w ∈ rows ∧ sqlDateValid w.Birthday = true ∧ sqlDateValid now = true ∧
        (Time.mk w.Birthday 0).Month = (Time.mk now 0).Month ∧
        (Time.mk w.Birthday 0).Day = (Time.mk now 0).Day) ∧
    (u ∈ selectBirthdays now rows ↔ v ∈ selectBirthdays now rows) := by
  refine ⟨mem_selectBirthdays now rows w, ?_⟩
  rw [mem_selectBirthdays, mem_selectBirthdays, hM, hD]
  simp only [hu, hv, hur, hvr, true_and]

set_option maxRecDepth 100000 in
theorem selectBirthdays_month_day_witness :
    User.mk "b" 13564800 ∈
      [User.mk "a" 13478400, User.mk "b" 13564800, User.mk "c" 1749254400] ∧
    User.mk "c" 1749254400 ∈
      [User.mk "a" 13478400, User.mk "b" 13564800, User.mk "c" 1749254400] ∧
    sqlDateValid (User.mk "b" 13564800).Birthday = true ∧
    sqlDateValid (User.mk "c" 1749254400).Birthday = true ∧
    (Time.mk (User.mk "b" 13564800).Birthday 0).Month =
      (Time.mk (User.mk "c" 1749254400).Birthday 0).Month ∧
    (Time.mk (User.mk "b" 13564800).Birthday 0).Day =
      (Time.mk (User.mk "c" 1749254400).Birthday 0).Day ∧
    ((User.mk "a" 13478400 ∈ selectBirthdays 1717718400
          [User.mk "a" 13478400, User.mk "b" 13564800, User.mk "c" 1749254400] ↔
        User.mk "a" 13478400 ∈
            [User.mk "a" 13478400, User.mk "b" 13564800, User.mk "c" 1749254400] ∧
          sqlDateValid (User.mk "a" 13478400).Birthday = true ∧
          sqlDateValid 1717718400 = true ∧
          (Time.mk (User.mk "a" 13478400).Birthday 0).Month = (Time.mk 1717718400 0).Month ∧
          (Time.mk (User.mk "a" 13478400).Birthday 0).Day = (Time.mk 1717718400 0).Day) ∧
      (User.mk "b" 13564800 ∈ selectBirthdays 1717718400
          [User.mk "a" 13478400, User.mk "b" 13564800, User.mk "c" 1749254400] ↔
        User.mk "c" 1749254400 ∈ selectBirthdays 1717718400
          [User.mk "a" 13478400, User.mk "b" 13564800, User.mk "c" 1749254400])) :=
  ⟨by decide, by decide, by decide, by decide, by decide, by decide,
    selectBirthdays_month_day 1717718400
      [User.mk "a" 13478400, User.mk "b" 13564800, User.mk "c" 1749254400]
      (User.mk "a" 13478400) (User.mk "b" 13564800) (User.mk "c" 1749254400)
      (by decide) (by decide) (by decide) (by decide) (by decide) (by decide)⟩

/-- C6: the option `date` of `set-birthday` is declared without `Required`, so it
is optional, and on an invocation that carries no option the handler panics at
`options["date"].StringValue()`. -/
theorem setBirthday_date_not_required :
    commands.map (fun c => c.Options.map (fun o => (o.Name, o.Required)))
      = [[("date", false)]] ∧
    ∀ (db : DbFaults) (rows : List User) (uid mention : String),
      setBirthday db rows { Options := [], UserID := uid, Mention := mention } =
        { reply := Reply.panic, rows := rows, ops := [] } := by
  refine ⟨by decide, ?_⟩
  intro db rows uid mention
  simp [setBirthday, parseOptions]

set_option maxRecDepth 100000 in
/-- C7: `main` registers the daily job on the scheduler and never starts it, so the
scheduler fires no job at any instant and the callback prints nothing, also at
midnight UTC with a birthday on that day in the table; once started, the same
scheduler fires the job at midnight and the callback prints the row. -/
theorem mainScheduler_never_fires :
    mainScheduler.running = false ∧
    (∀ now : Int, mainScheduler.fired now = []) ∧
    (∀ (now : Int) (rows : List User), mainScheduler.printed now rows = []) ∧
    mainScheduler.printed 1717632000 [User.mk "a" 13478400] = [] ∧
    mainScheduler.Start.fired 1717632000 = ["0 0 * * *"] ∧
    mainScheduler.Start.printed 1717632000 [User.mk "a" 13478400] = [User.mk "a" 13478400] := by
  refine ⟨rfl, fun _ => rfl, fun _ _ => rfl, rfl, by decide, by decide⟩

/-- C8: for an accepted text, when `Begin`, `Exec` or `Commit` fails the reply is
the error message and not the success message, the committed rows of `users` are
unchanged, and each of the three calls is made at most once, in order. -/
theorem setBirthday_transaction_failure (db : DbFaults) (rows : List User)
    (uid mention s : String) (t : Time) (hok : (Parse s).toOption = some t)
    (hfail : db.beginErr.isSome = true ∨ db.execErr.isSome = true ∨
      db.commitErr.isSome = true) :
    (∃ rest, (setBirthday db rows (invoke uid mention s)).reply =
      Reply.content (errorHead ++ rest)) ∧
    (setBirthday db rows (invoke uid mention s)).reply ≠
      Reply.content (successReply mention (rebase t)) ∧
    (setBirthday db rows (invoke uid mention s)).rows = rows ∧
    (setBirthday db rows (invoke uid mention s)).ops <+:
      [DbOp.begin, DbOp.exec uid (rebase t).Unix, DbOp.commit] := by
  rw [setBirthday_accepted db rows uid mention s t (Parse_toOption.1 hok)]
  obtain ⟨b, x, c⟩ := db
  cases b with
  | some err =>
    obtain ⟨rest, hrest⟩ := errorReply_head err
    refine ⟨⟨rest, congrArg Reply.content hrest⟩, ?_, rfl,
      ⟨[DbOp.exec uid (rebase t).Unix, DbOp.commit], rfl⟩⟩
    intro h
    exact errorReply_ne_success _ _ _ (Reply.content.inj h)
  | none =>
    cases x with
    | some err =>
      obtain ⟨rest, hrest⟩ := errorReply_head err
      refine ⟨⟨rest, congrArg Reply.content hrest⟩, ?_, rfl, ⟨[DbOp.commit], rfl⟩⟩
      intro h
      exact errorReply_ne_success _ _ _ (Reply.content.inj h)
    | none =>
      cases c with
      | some err =>
        obtain ⟨rest, hrest⟩ := errorReply_head err
        refine ⟨⟨rest, congrArg Reply.content hrest⟩, ?_, rfl, ⟨[], rfl⟩⟩
        intro h
        exact errorReply_ne_success _ _ _ (Reply.content.inj h)
      | none => simp at hfail

set_option maxRecDepth 100000 in
theorem setBirthday_transaction_failure_witness :
    (Parse "Jun 06").toOption = some (Time.mk (-62153654400) 0) ∧
    ((∃ rest, (setBirthday (DbFaults.mk none none (some "database is locked"))
        [User.mk "u" 16156800] (invoke "u" "<@!u>" "Jun 06")).reply =
      Reply.content (errorHead ++ rest)) ∧
    (setBirthday (DbFaults.mk none none (some "database is locked"))
        [User.mk "u" 16156800] (invoke "u" "<@!u>" "Jun 06")).reply ≠
      Reply.content (successReply "<@!u>" (rebase (Time.mk (-62153654400) 0))) ∧
    (setBirthday (DbFaults.mk none none (some "database is locked"))
        [User.mk "u" 16156800] (invoke "u" "<@!u>" "Jun 06")).rows = [User.mk "u" 16156800] ∧
    (setBirthday (DbFaults.mk none none (some "database is locked"))
        [User.mk "u" 16156800] (invoke "u" "<@!u>" "Jun 06")).ops <+:
      [DbOp.begin, DbOp.exec "u" (rebase (Time.mk (-62153654400) 0)).Unix, DbOp.commit]) :=
  ⟨by decide,
    setBirthday_transaction_failure (DbFaults.mk none none (some "database is locked"))
      [User.mk "u" 16156800] "u" "<@!u>" "Jun 06" (Time.mk (-62153654400) 0)
      (by decide) (by decide)⟩

/-- C9: every birthdate the handler hands to the database is a midnight UTC of the
year 1970: an integer `e` with `0 <= e < 365*86400` and `e mod 86400 = 0`, whose
year in UTC is 1970 and whose hour, minute and second are 0. -/
theorem setBirthday_writes_midnight_of_1970 (db : DbFaults) (rows : List User)
    (i : Interaction) (id : String) (e : Int)
    (h : DbOp.exec id e ∈ (setBirthday db rows i).ops) :
    0 ≤ e ∧ e < 365 * 86400 ∧ e % 86400 = 0 ∧ (Time.mk e 0).Year = 1970 ∧
    (Time.mk e 0).Hour = 0 ∧ (Time.mk e 0).Minute = 0 ∧ (Time.mk e 0).Second = 0 := by
  obtain ⟨opt, t, -, ht, he, -⟩ := setBirthday_exec db rows i id e h
  obtain ⟨h0, h1, h2, h3, h4, h5, h6, -, -⟩ := rebase_of_Parse ht
  subst he
  exact ⟨h0, h1, h2, h3, h4, h5, h6⟩

set_option maxRecDepth 100000 in
theorem setBirthday_writes_midnight_of_1970_witness :
    DbOp.exec "u" 13478400 ∈ (setBirthday noFaults [] (invoke "u" "<@!u>" "Jun 06")).ops ∧
    ((0 : Int) ≤ 13478400 ∧ (13478400 : Int) < 365 * 86400 ∧ (13478400 : Int) % 86400 = 0 ∧
      (Time.mk 13478400 0).Year = 1970 ∧ (Time.mk 13478400 0).Hour = 0 ∧
      (Time.mk 13478400 0).Minute = 0 ∧ (Time.mk 13478400 0).Second = 0) :=
  ⟨by decide,
    setBirthday_writes_midnight_of_1970 noFaults [] (invoke "u" "<@!u>" "Jun 06") "u" 13478400
      (by decide)⟩

set_option maxRecDepth 100000 in
/-- C10: `ord` answers "th" for 3, 21, 22, 23 and 31, whose suffixes are "rd",
"st", "nd", "rd" and "st", and `months` spells February "Feburary" and November
"Noveember"; the success message for "Feb 03" reads "Feburary 3th". -/
theorem ord_and_months_misspell :
    ord 1 = "st" ∧ ord 2 = "nd" ∧ ord 3 = "th" ∧ ord 21 = "th" ∧ ord 22 = "th" ∧
    ord 23 = "th" ∧ ord 31 = "th" ∧
    months 2 = "Feburary" ∧ months 11 = "Noveember" ∧
    (setBirthday noFaults [] (invoke "u" "<@!u>" "Feb 03")).reply =
      Reply.content "Success! <@!u>, you have set your birthday to Feburary 3th." := by
  decide

end Birthdaybot
